import Mathlib

/-!
Verification development for the relay memory substrate.

The Lean definitions below are a shallow embedding of the Go source:

* `internal/artifacts/store.go` — preview generation, sanitization, refs;
* `internal/state/schema.go` — state, header projection, JSON patch;
* the compactor (`Compact`, `collapseActions`, `compactArtifacts`,
  `ensureReferentialClosure`) from the `state` package;
* `internal/cache/cache.go` — cache `Get`;
* `internal/proxy/proxy.go` — capture-event emission.

Go byte strings are modelled as `List Nat` (one entry per byte); Go
`string` fields that are only stored and compared are modelled as Lean
`String`.  Go's `strings.ToLower` is modelled bytewise on the ASCII
range, which agrees with Go on all inputs used by the patterns involved
(the sanitization patterns and the content-type markers are ASCII).
SQLite tables are modelled as lists of rows keyed by their primary key;
`INSERT OR REPLACE` removes the row with the same key and inserts the
new one.  Wall-clock values are passed in explicitly.  SHA-256 hashes
and file-system side effects are not modelled; no claim below depends
on them.
-/

namespace Relay

set_option maxRecDepth 16384

/-! ### Byte-level helpers -/

/-- ASCII lower-casing of a single byte (Go `strings.ToLower`, restricted
to the ASCII range; all patterns searched for in this development are
ASCII). -/
def lowerByte (b : Nat) : Nat :=
  if 65 ≤ b ∧ b ≤ 90 then b + 32 else b

/-- Bytewise lower-casing of a byte string. -/
def lowerBytes (l : List Nat) : List Nat := l.map lowerByte

/-- The bytes of an ASCII Lean string literal. -/
def strBytes (s : String) : List Nat := s.toList.map Char.toNat

/-- Index of the first occurrence of `pat` in `l` (Go `strings.Index`,
returning `none` instead of `-1`). -/
def idxOfSeq (pat : List Nat) : List Nat → Option Nat
  | [] => if List.isPrefixOf pat [] then some 0 else none
  | x :: tl =>
    if List.isPrefixOf pat (x :: tl) then some 0
    else (idxOfSeq pat tl).map (fun i => i + 1)

/-- Go `strings.Contains` on byte strings. -/
def containsSeq (pat l : List Nat) : Bool := (idxOfSeq pat l).isSome

/-- Index of the last occurrence of byte `b` (Go `strings.LastIndex` with
a one-byte needle, returning `none` instead of `-1`). -/
def lastIdxOfByte (b : Nat) : List Nat → Option Nat
  | [] => none
  | x :: tl =>
    match lastIdxOfByte b tl with
    | some i => some (i + 1)
    | none => if x = b then some 0 else none

/-- Number of occurrences of byte `b` in `l`. -/
def countByte (b : Nat) (l : List Nat) : Nat := (l.filter (fun x => x = b)).length

/-- Whether a continuation byte is in `0x80..0xBF`. -/
def utf8Cont (b : Nat) : Bool := 128 ≤ b ∧ b ≤ 191

/-- Go `utf8.Valid`: whether a byte string is well-formed UTF-8 (rejecting
overlong encodings, surrogates and values above U+10FFFF). -/
def validUTF8 : List Nat → Bool
  | [] => true
  | b :: tl =>
    if b ≤ 127 then validUTF8 tl
    else if 194 ≤ b ∧ b ≤ 223 then
      match tl with
      | c1 :: tl1 => utf8Cont c1 && validUTF8 tl1
      | [] => false
    else if b = 224 then
      match tl with
      | c1 :: c2 :: tl2 => (160 ≤ c1 ∧ c1 ≤ 191 : Bool) && utf8Cont c2 && validUTF8 tl2
      | _ => false
    else if (225 ≤ b ∧ b ≤ 236) ∨ b = 238 ∨ b = 239 then
      match tl with
      | c1 :: c2 :: tl2 => utf8Cont c1 && utf8Cont c2 && validUTF8 tl2
      | _ => false
    else if b = 237 then
      match tl with
      | c1 :: c2 :: tl2 => (128 ≤ c1 ∧ c1 ≤ 159 : Bool) && utf8Cont c2 && validUTF8 tl2
      | _ => false
    else if b = 240 then
      match tl with
      | c1 :: c2 :: c3 :: tl3 =>
        (144 ≤ c1 ∧ c1 ≤ 191 : Bool) && utf8Cont c2 && utf8Cont c3 && validUTF8 tl3
      | _ => false
    else if 241 ≤ b ∧ b ≤ 243 then
      match tl with
      | c1 :: c2 :: c3 :: tl3 => utf8Cont c1 && utf8Cont c2 && utf8Cont c3 && validUTF8 tl3
      | _ => false
    else if b = 244 then
      match tl with
      | c1 :: c2 :: c3 :: tl3 =>
        (128 ≤ c1 ∧ c1 ≤ 143 : Bool) && utf8Cont c2 && utf8Cont c3 && validUTF8 tl3
      | _ => false
    else false

/-! ### Artifact previews and sanitization (`internal/artifacts/store.go`) -/

/-- `MaxPreviewBytes` from `store.go`. -/
def maxPreviewBytes : Nat := 2048

/-- The `dangerous` pattern list of `sanitizePreview`, in source order. -/
def dangerousPatterns : List String :=
  ["ignore previous instructions",
   "ignore all instructions",
   "<|system|>",
   "<|user|>",
   "<|assistant|>",
   "[INST]",
   "[/INST]",
   "###instruction",
   "###system"]

/-- One iteration of the `for _, pattern := range dangerous` loop in
`sanitizePreview`: if the lower-cased text contains the lower-cased
pattern, the first occurrence is spliced out and replaced with
`[SANITIZED]` (the Go code re-computes `lower` afterwards, which the
next fold step does). -/
def sanitizeStep (text : List Nat) (pattern : String) : List Nat :=
  let pat := lowerBytes (strBytes pattern)
  match idxOfSeq pat (lowerBytes text) with
  | none => text
  | some idx => text.take idx ++ strBytes "[SANITIZED]" ++ text.drop (idx + pat.length)

/-- `sanitizePreview` from `store.go`: fold the per-pattern replacement
over the fixed pattern list. -/
def sanitizePreview (text : List Nat) : List Nat :=
  dangerousPatterns.foldl sanitizeStep text

/-- Artifact type tags (`ArtifactType` constants in `store.go`). -/
inductive ArtifactType where
  | toolOutput
  | email
  | markdown
  | json
  | html
  | text
  | binary
deriving DecidableEq

/-- `Preview` from `store.go` (text kept as bytes). -/
structure Preview where
  text : List Nat
  lineCount : Nat
  truncated : Bool
  size : Nat
deriving DecidableEq

/-- `generatePreview` from `store.go`. -/
def generatePreview (content : List Nat) (atype : ArtifactType) : Preview :=
  if atype = ArtifactType.binary then
    { text := strBytes ("[binary, " ++ toString content.length ++ " bytes]"),
      lineCount := 0, truncated := false, size := content.length }
  else if validUTF8 content = false then
    { text := strBytes ("[binary data, " ++ toString content.length ++ " bytes]"),
      lineCount := 0, truncated := true, size := content.length }
  else
    let text := sanitizePreview content
    let lineCount := countByte 10 text + 1
    if text.length > maxPreviewBytes then
      let trunc0 := text.take (maxPreviewBytes - 4)
      let trunc :=
        match lastIdxOfByte 10 trunc0 with
        | some idx => if 0 < idx then trunc0.take idx else trunc0
        | none => trunc0
      { text := trunc ++ strBytes "\n...", lineCount := lineCount,
        truncated := true, size := content.length }
    else
      { text := text, lineCount := lineCount, truncated := false, size := content.length }

/-- A row of the `artifacts` table (`ref` is the primary key; the SHA-256
hash column and the file path are not modelled — no claim depends on
them). -/
structure ArtifactRow where
  ref : String
  threadID : String
  atype : ArtifactType
  mime : String
  name : String
  size : Nat
  preview : Preview
  createdAt : String
deriving DecidableEq

/-- `Store.save` from `store.go`: `INSERT OR REPLACE INTO artifacts` —
the row with the same primary key, if any, is removed and the new row
inserted. -/
def saveArtifact (tbl : List ArtifactRow) (art : ArtifactRow) : List ArtifactRow :=
  tbl.filter (fun r => r.ref ≠ art.ref) ++ [art]

/-- `newRef` from `store.go`: `fmt.Sprintf("%013x%012x", t, r&0xFFFFFFFFFFFF)`
over the millisecond timestamp and 48 random bits. -/
def hexPad (w n : Nat) : String :=
  let ds := Nat.toDigits 16 n
  String.mk (List.replicate (w - ds.length) '0' ++ ds)

def newRef (tMs rnd : Nat) : String :=
  hexPad 13 tMs ++ hexPad 12 (rnd % (2 ^ 48))

/-- `Store.Put` from `store.go`, with the clock and the random draw as
explicit arguments: generates the ref, derives the preview and saves the
metadata row.  There is no check that the generated ref is fresh. -/
def putArtifact (tbl : List ArtifactRow) (threadID name : String) (atype : ArtifactType)
    (mime : String) (content : List Nat) (createdAt : String) (tMs rnd : Nat) :
    ArtifactRow × List ArtifactRow :=
  let art : ArtifactRow :=
    { ref := newRef tMs rnd, threadID := threadID, atype := atype, mime := mime,
      name := name, size := content.length, preview := generatePreview content atype,
      createdAt := createdAt }
  (art, saveArtifact tbl art)

/-! ### State data model (`internal/state/schema.go`)

Go struct fields named `At` are modelled as `atS` (`at` clashes with
Lean syntax); their JSON name is still `"at"`.  `Decision.Confidence`
is `float64` in Go; only integral values occur in this development, so
it is modelled as `Int`.  `time.Time` fields are modelled as the
already-formatted timestamp string they serialize to. -/

/-- JSON values as decoded by Go's `encoding/json` into `any` /
`json.RawMessage` (numbers restricted to integers; no claim involves
fractional values). -/
inductive Json where
  | null
  | bool (b : Bool)
  | num (n : Int)
  | str (s : String)
  | arr (elems : List Json)
  | obj (members : List (String × Json))

structure Fact where
  id : String
  key : String
  value : Json
  atS : String

structure Constraint where
  id : String
  description : String
  severity : String
deriving DecidableEq

structure Question where
  id : String
  question : String
  status : String
deriving DecidableEq

structure Decision where
  id : String
  description : String
  reasonCodes : List String
  evidenceRef : List String
  confidence : Int
  atS : String
deriving DecidableEq

structure PlanStep where
  id : String
  step : String
  status : String
deriving DecidableEq

structure StateArtifactRef where
  ref : String
  type : String
  name : String
deriving DecidableEq

structure Action where
  atS : String
  description : String
  resultRef : String
deriving DecidableEq

structure Metrics where
  cacheHits : Int
  cacheMisses : Int
  tokensEstimate : Int
  tokensAvoided : Int
  hopCount : Int
deriving DecidableEq

/-- `State` from `schema.go`.  The `sessionSummary` field is assigned by
the compactor (`st.SessionSummary = ...`); its declaration is not among
the provided sources.  Modelled from the spec: "an optional **session
summary** string (set by the compactor)" — a string field serialized as
`"session_summary"` and omitted when empty. -/
structure State where
  schema : String
  version : Int
  threadID : String
  updatedAt : String
  facts : List Fact
  constraints : List Constraint
  openQuestions : List Question
  decisions : List Decision
  plan : List PlanStep
  artifacts : List StateArtifactRef
  lastActions : List Action
  metrics : Metrics
  sessionSummary : String

def schemaVersion : String := "com.relay.state.v1"

/-! ### Go `encoding/json` serialization model

`json.Marshal` output for the structures above: struct fields in
declaration order, map keys sorted, strings escaped as Go does (with
HTML escaping on, the `json.Marshal` default).  Nil-versus-empty
slices are not distinguished by the embedding: every empty list renders
as `[]` where Go renders `null` for a nil slice — a difference of two
bytes per empty field that no theorem below depends on. -/

/-- Go JSON escaping of one character. -/
def escChar (c : Char) : String :=
  if c = '"' then "\\\""
  else if c = '\\' then "\\\\"
  else if c = '\n' then "\\n"
  else if c = '\r' then "\\r"
  else if c = '\t' then "\\t"
  else if c = '<' then "\\u003c"
  else if c = '>' then "\\u003e"
  else if c = '&' then "\\u0026"
  else if c.toNat < 32 then
    "\\u00" ++ String.mk [Nat.digitChar (c.toNat / 16), Nat.digitChar (c.toNat % 16)]
  else if c.toNat = 8232 then "\\u2028"
  else if c.toNat = 8233 then "\\u2029"
  else String.singleton c

/-- A JSON string literal for `s`. -/
def encStr (s : String) : String :=
  "\"" ++ String.join (s.toList.map escChar) ++ "\""

def commaJoin : List String → String
  | [] => ""
  | [s] => s
  | s :: tl => s ++ "," ++ commaJoin tl

def insertPair (m : String × String) : List (String × String) → List (String × String)
  | [] => [m]
  | x :: tl => if m.1 ≤ x.1 then m :: x :: tl else x :: insertPair m tl

/-- Sort encoded object members by key (Go sorts map keys; keys of a Go
map are unique, so the order is fully determined). -/
def sortPairs : List (String × String) → List (String × String)
  | [] => []
  | m :: tl => insertPair m (sortPairs tl)

mutual

/-- Render a `Json` value the way Go `json.Marshal` renders the
corresponding decoded `any` value. -/
def encJson : Json → String
  | Json.null => "null"
  | Json.bool b => if b then "true" else "false"
  | Json.num n => toString n
  | Json.str s => encStr s
  | Json.arr es => "[" ++ commaJoin (encElems es) ++ "]"
  | Json.obj ms =>
    "\x7b" ++
      commaJoin ((sortPairs (encMembers ms)).map (fun p => encStr p.1 ++ ":" ++ p.2)) ++
      "\x7d"

def encElems : List Json → List String
  | [] => []
  | e :: tl => encJson e :: encElems tl

def encMembers : List (String × Json) → List (String × String)
  | [] => []
  | (k, v) :: tl => (k, encJson v) :: encMembers tl

end

def encList (enc : α → String) (l : List α) : String :=
  "[" ++ commaJoin (l.map enc) ++ "]"

def encFact (f : Fact) : String :=
  "\x7b\"id\":" ++ encStr f.id ++ ",\"key\":" ++ encStr f.key ++
    ",\"value\":" ++ encJson f.value ++
    (if f.atS = "" then "" else ",\"at\":" ++ encStr f.atS) ++ "\x7d"

def encConstraint (c : Constraint) : String :=
  "\x7b\"id\":" ++ encStr c.id ++ ",\"description\":" ++ encStr c.description ++
    ",\"severity\":" ++ encStr c.severity ++ "\x7d"

def encQuestion (q : Question) : String :=
  "\x7b\"id\":" ++ encStr q.id ++ ",\"question\":" ++ encStr q.question ++
    ",\"status\":" ++ encStr q.status ++ "\x7d"

def encDecision (d : Decision) : String :=
  "\x7b\"id\":" ++ encStr d.id ++ ",\"description\":" ++ encStr d.description ++
    ",\"reason_codes\":" ++ encList encStr d.reasonCodes ++
    ",\"evidence_refs\":" ++ encList encStr d.evidenceRef ++
    ",\"confidence\":" ++ toString d.confidence ++
    (if d.atS = "" then "" else ",\"at\":" ++ encStr d.atS) ++ "\x7d"

def encPlanStep (p : PlanStep) : String :=
  "\x7b\"id\":" ++ encStr p.id ++ ",\"step\":" ++ encStr p.step ++
    ",\"status\":" ++ encStr p.status ++ "\x7d"

def encArtifactRef (a : StateArtifactRef) : String :=
  "\x7b\"ref\":" ++ encStr a.ref ++ ",\"type\":" ++ encStr a.type ++
    (if a.name = "" then "" else ",\"name\":" ++ encStr a.name) ++ "\x7d"

def encAction (a : Action) : String :=
  "\x7b\"at\":" ++ encStr a.atS ++ ",\"description\":" ++ encStr a.description ++
    (if a.resultRef = "" then "" else ",\"result_ref\":" ++ encStr a.resultRef) ++ "\x7d"

def encMetrics (m : Metrics) : String :=
  "\x7b\"cache_hits\":" ++ toString m.cacheHits ++
    ",\"cache_misses\":" ++ toString m.cacheMisses ++
    ",\"tokens_estimate\":" ++ toString m.tokensEstimate ++
    ",\"tokens_avoided\":" ++ toString m.tokensAvoided ++
    ",\"hop_count\":" ++ toString m.hopCount ++ "\x7d"

/-- `json.Marshal` of a `State` value. -/
def encState (st : State) : String :=
  "\x7b\"$schema\":" ++ encStr st.schema ++
    ",\"version\":" ++ toString st.version ++
    ",\"thread_id\":" ++ encStr st.threadID ++
    ",\"updated_at\":" ++ encStr st.updatedAt ++
    ",\"facts\":" ++ encList encFact st.facts ++
    ",\"constraints\":" ++ encList encConstraint st.constraints ++
    ",\"open_questions\":" ++ encList encQuestion st.openQuestions ++
    ",\"decisions\":" ++ encList encDecision st.decisions ++
    ",\"plan\":" ++ encList encPlanStep st.plan ++
    ",\"artifacts\":" ++ encList encArtifactRef st.artifacts ++
    ",\"last_actions\":" ++ encList encAction st.lastActions ++
    ",\"metrics\":" ++ encMetrics st.metrics ++
    (if st.sessionSummary = "" then ""
     else ",\"session_summary\":" ++ encStr st.sessionSummary) ++ "\x7d"

/-! ### Header projection (`State.Header` in `schema.go`) -/

def maxHeaderFacts : Nat := 10
def maxHeaderConstraints : Nat := 5
def maxHeaderQuestions : Nat := 5
def maxHeaderPlanSteps : Nat := 5
def maxHeaderArtifacts : Nat := 10
def maxHeaderActions : Nat := 5

/-- `MaxHeaderBytes` from `schema.go`. -/
def maxHeaderBytes : Nat := 2048

/-- `Header` from `schema.go`. -/
structure Header where
  schema : String
  threadID : String
  version : Int
  topFacts : List Fact
  topConstraints : List Constraint
  openQuestions : List Question
  nextSteps : List PlanStep
  artifactRefs : List StateArtifactRef
  lastActions : List Action
  metrics : Metrics
  truncated : Bool

/-- `json.Marshal` of a `Header` (`truncated` carries `omitempty`). -/
def encHeader (h : Header) : String :=
  "\x7b\"$schema\":" ++ encStr h.schema ++
    ",\"thread_id\":" ++ encStr h.threadID ++
    ",\"version\":" ++ toString h.version ++
    ",\"top_facts\":" ++ encList encFact h.topFacts ++
    ",\"top_constraints\":" ++ encList encConstraint h.topConstraints ++
    ",\"open_questions\":" ++ encList encQuestion h.openQuestions ++
    ",\"next_steps\":" ++ encList encPlanStep h.nextSteps ++
    ",\"artifact_refs\":" ++ encList encArtifactRef h.artifactRefs ++
    ",\"last_actions\":" ++ encList encAction h.lastActions ++
    ",\"metrics\":" ++ encMetrics h.metrics ++
    (if h.truncated then ",\"truncated\":true" else "") ++ "\x7d"

/-- UTF-8 byte count of a character list. -/
def byteSizeGo : List Char → Nat
  | [] => 0
  | c :: tl => c.utf8Size + byteSizeGo tl

/-- Byte length of a string (Go `len` on the marshalled bytes). -/
def byteSize (s : String) : Nat := byteSizeGo s.toList

/-- Serialized byte length of a header (Go `len(data)`). -/
def headerLen (h : Header) : Nat := byteSize (encHeader h)

/-- The `for _, q := range ...` loops of `Header()`: collect entries
satisfying `p`, stopping once `n` have been taken (Go appends, then
breaks when the output has reached the bound). -/
def collectMatching (p : α → Bool) : Nat → List α → List α
  | _, [] => []
  | n, x :: tl =>
    if p x then
      if n ≤ 1 then [x] else x :: collectMatching p (n - 1) tl
    else collectMatching p n tl

/-- The field-count capping part of `State.Header()` (everything before
the byte-cap loop). -/
def headerBase (s : State) : Header :=
  { schema := schemaVersion
    threadID := s.threadID
    version := s.version
    topFacts :=
      if s.facts.length > maxHeaderFacts then s.facts.drop (s.facts.length - maxHeaderFacts)
      else s.facts
    topConstraints :=
      if s.constraints.length > maxHeaderConstraints then s.constraints.take maxHeaderConstraints
      else s.constraints
    openQuestions :=
      collectMatching (fun q => q.status = "open" ∨ q.status = "") maxHeaderQuestions
        s.openQuestions
    nextSteps :=
      collectMatching (fun p => p.status = "pending" ∨ p.status = "") maxHeaderPlanSteps s.plan
    artifactRefs :=
      if s.artifacts.length > maxHeaderArtifacts then
        s.artifacts.drop (s.artifacts.length - maxHeaderArtifacts)
      else s.artifacts
    lastActions :=
      if s.lastActions.length > maxHeaderActions then
        s.lastActions.drop (s.lastActions.length - maxHeaderActions)
      else s.lastActions
    metrics := s.metrics
    truncated := false }

/-- The byte-cap loop of `Header()`: while the serialization exceeds
`MaxHeaderBytes` and facts remain, drop the oldest fact and set the
truncated flag.  The loop runs at most once per fact, so the fact count
of the input is enough fuel. -/
def capFactsGo : Nat → Header → Header
  | 0, h => h
  | fuel + 1, h =>
    if h.topFacts.isEmpty then h
    else if headerLen h ≤ maxHeaderBytes then h
    else capFactsGo fuel { h with topFacts := h.topFacts.tail, truncated := true }

/-- `State.Header()` from `schema.go`. -/
def State.header (s : State) : Header :=
  capFactsGo (headerBase s).topFacts.length (headerBase s)

/-! ### Compactor (`Compact` and helpers in the `state` package)

The Go compactor mutates its `*State` argument in place and returns an
error; `Compact` below returns the pair of the error and the state of
the pointed-to object when the call returns.  The Go `map[string]struct{}`
ref sets are modelled as lists of which only membership and emptiness
are consumed. -/

def maxActionsKeep : Nat := 50
def maxArtifactsKeep : Nat := 200

/-- Whitespace as recognized by Go `unicode.IsSpace`, restricted to the
ASCII and Latin-1 characters (the only ones appearing in this
development). -/
def isSpaceChar (c : Char) : Bool :=
  c = ' ' ∨ c = '\t' ∨ c = '\n' ∨ c = '\r' ∨ c.toNat = 11 ∨ c.toNat = 12 ∨
    c.toNat = 133 ∨ c.toNat = 160

/-- Go `strings.TrimSpace`. -/
def trimSpace (s : String) : String :=
  String.mk (((s.toList.dropWhile isSpaceChar).reverse.dropWhile isSpaceChar).reverse)

/-- The `flush` closure of `collapseActions`: append the pending action,
suffixing its trimmed description with `" (xN)"` when it stands for more
than one collapsed action. -/
def flushAction (out : List Action) (a : Action) (n : Nat) : List Action :=
  if n ≤ 1 then out ++ [a]
  else out ++ [{ a with description := trimSpace a.description ++ " (x" ++ toString n ++ ")" }]

/-- The `for i := 1; ...` loop of `collapseActions`, carrying the current
run (`cur`, `count`) and the output accumulator. -/
def collapseGo : List Action → Action → Nat → List Action → List Action
  | [], cur, count, out => flushAction out cur count
  | a :: tl, cur, count, out =>
    if a.description = cur.description ∧ a.resultRef = cur.resultRef then
      collapseGo tl cur (count + 1) out
    else collapseGo tl a 1 (flushAction out cur count)

/-- `collapseActions` from the compactor. -/
def collapseActions : List Action → List Action
  | [] => []
  | a0 :: rest => collapseGo rest a0 1 []

/-- `referencedArtifacts`: the set of non-empty result refs of the
actions (a Go map; here a list used only through `contains`/`isEmpty`). -/
def referencedArtifacts (actions : List Action) : List String :=
  (actions.filter (fun a => a.resultRef ≠ "")).map (fun a => a.resultRef)

/-- The `for _, a := range artifacts` loop of `compactArtifacts` that
collects refs required by actions but missing from the kept base, with
the growing `seen` set deduplicating re-added entries. -/
def collectMissing : List StateArtifactRef → List String → List String → List StateArtifactRef
  | [], _, _ => []
  | a :: tl, keep, seen =>
    if keep.contains a.ref && !(seen.contains a.ref) then
      a :: collectMissing tl keep (a.ref :: seen)
    else collectMissing tl keep seen

/-- The `sort.Slice` comparator for re-added refs: by ref, then name. -/
def missingLt (a b : StateArtifactRef) : Bool :=
  if a.ref ≠ b.ref then a.ref < b.ref else a.name < b.name

def insertMissing (m : StateArtifactRef) : List StateArtifactRef → List StateArtifactRef
  | [] => [m]
  | x :: tl => if missingLt m x then m :: x :: tl else x :: insertMissing m tl

/-- Sorting the re-added refs (Go `sort.Slice`; the refs in `missing` are
pairwise distinct, so any comparison sort produces the same list). -/
def sortMissing : List StateArtifactRef → List StateArtifactRef
  | [] => []
  | m :: tl => insertMissing m (sortMissing tl)

/-- `compactArtifacts` from the compactor. -/
def compactArtifacts (artifacts : List StateArtifactRef) (keepRefs : List String) :
    List StateArtifactRef :=
  if artifacts.isEmpty then artifacts
  else
    let base :=
      if artifacts.length > maxArtifactsKeep then
        artifacts.drop (artifacts.length - maxArtifactsKeep)
      else artifacts
    let seen := base.map (fun a => a.ref)
    let missing := if keepRefs.isEmpty then [] else collectMissing artifacts keepRefs seen
    base ++ sortMissing missing

def closureGo : List Action → List String → Option String
  | [], _ => none
  | a :: tl, artSet =>
    if a.resultRef = "" then closureGo tl artSet
    else if artSet.contains a.resultRef then closureGo tl artSet
    else some ("referential closure violated: action references missing artifact " ++ a.resultRef)

/-- `ensureReferentialClosure` from the compactor: `none` on success, the
error message of the first violating action otherwise. -/
def ensureReferentialClosure (actions : List Action) (artifacts : List StateArtifactRef) :
    Option String :=
  if actions.isEmpty then none
  else closureGo actions (artifacts.map (fun a => a.ref))

/-- `Compact` from the compactor.  Returns `(error, state after the
call)`; the Go function rewrites `st.LastActions`, `st.Artifacts` and
`st.SessionSummary` in place before the closure check, so the second
component is the caller-visible state even when the first is an error. -/
def Compact (st : State) : Option String × State :=
  let originalActions := st.lastActions.length
  let originalArtifacts := st.artifacts.length
  let la1 :=
    if st.lastActions.isEmpty then st.lastActions
    else
      let c := collapseActions st.lastActions
      if c.length > maxActionsKeep then c.drop (c.length - maxActionsKeep) else c
  let refSet := referencedArtifacts la1
  let arts1 :=
    if st.artifacts.length > maxArtifactsKeep ∨ ¬ refSet.isEmpty then
      compactArtifacts st.artifacts refSet
    else st.artifacts
  let summary :=
    if la1.length ≠ originalActions ∨ arts1.length ≠ originalArtifacts then
      "Compacted: actions " ++ toString originalActions ++ "→" ++ toString la1.length ++
        ", artifacts " ++ toString originalArtifacts ++ "→" ++ toString arts1.length
    else st.sessionSummary
  let st' := { st with lastActions := la1, artifacts := arts1, sessionSummary := summary }
  (ensureReferentialClosure la1 arts1, st')

/-! ### Cache (`internal/cache/cache.go`)

Timestamps are modelled as `Nat` instants (`time.Now().After(t)` is
strict `>`); the RFC3339 round-trip through the `TEXT` columns is not
modelled. -/

structure CacheEntry where
  key : String
  capability : String
  argsHash : String
  preview : String
  artifactRef : String
  threadID : String
  createdAt : Nat
  expiresAt : Nat
  hitCount : Int
deriving DecidableEq

/-- `Cache.Get`: `(entry, hit, table after the call)`.  A present,
expired row is lazily deleted and reported as a miss; a live row has its
hit count incremented (`UPDATE ... SET hit_count = hit_count + 1`) and
is returned with the updated count. -/
def cacheGet (tbl : List CacheEntry) (key : String) (now : Nat) :
    Option CacheEntry × Bool × List CacheEntry :=
  match tbl.find? (fun e => e.key == key) with
  | none => (none, false, tbl)
  | some e =>
    if now > e.expiresAt then
      (none, false, tbl.filter (fun x => x.key != key))
    else
      (some { e with hitCount := e.hitCount + 1 }, true,
       tbl.map (fun x => if x.key == key then { x with hitCount := x.hitCount + 1 } else x))

/-! ### Proxy capture (`internal/proxy/proxy.go`) -/

/-- `isTextContent` from `proxy.go`. -/
def isTextContent (ct : String) : Bool :=
  let c := lowerBytes (strBytes ct)
  containsSeq (strBytes "json") c || containsSeq (strBytes "text/") c ||
    containsSeq (strBytes "xml") c || containsSeq (strBytes "yaml") c

/-- `ResponseEvent` from `proxy.go`. -/
structure ResponseEvent where
  host : String
  path : String
  body : List Nat
  contentType : String
deriving DecidableEq

/-- `Interceptor.emit`: drops the capture when no sink is configured,
the body is empty, or the content type is not textual; otherwise builds
the event (query string folded into the path). -/
def emit (hasSink : Bool) (host path query : String) (body : List Nat)
    (contentType : String) : Option ResponseEvent :=
  if ¬ hasSink ∨ body.isEmpty ∨ ¬ isTextContent contentType then none
  else
    some { host := host, path := if query ≠ "" then path ++ "?" ++ query else path,
           body := body, contentType := contentType }

/-- The capture behaviour of `handleHTTP`: on a successfully proxied
request (`reqOk`), `emit` is invoked for `GET` requests only, with the
fully-read response body and the response's `Content-Type`.  (The MITM
`handleCONNECT` serving loop guards its `emit` call identically.) -/
def handleHTTPCapture (hasSink : Bool) (method : String) (reqOk : Bool)
    (host path query : String) (body : List Nat) (contentType : String) :
    Option ResponseEvent :=
  if ¬ reqOk then none
  else if method = "GET" then emit hasSink host path query body contentType
  else none

/-! ### JSON patch dialect (`schema.go`) and the state store -/

/-- `PatchOp` from `schema.go` (`Value` is a `json.RawMessage`, here a
`Json` value defaulting to `null`; `From` is accepted but unused). -/
structure PatchOp where
  op : String
  path : String
  value : Json := Json.null
  fromPath : String := ""

def validOps : List String := ["add", "remove", "replace", "move", "copy", "test"]

def validatePatchGo : Nat → List PatchOp → Option String
  | _, [] => none
  | i, op :: tl =>
    if ¬ validOps.contains op.op then
      some ("patch[" ++ toString i ++ "]: unknown op \"" ++ op.op ++ "\"")
    else if op.path = "" then some ("patch[" ++ toString i ++ "]: path is required")
    else validatePatchGo (i + 1) tl

/-- `ValidatePatch` from `schema.go` (`none` = valid). -/
def ValidatePatch (ops : List PatchOp) : Option String := validatePatchGo 0 ops

/-- The JSON-object document `ApplyPatch` works on
(`map[string]json.RawMessage`); only key lookup, update and deletion are
consumed, so the list order is immaterial. -/
abbrev Doc := List (String × Json)

def mapGet (doc : Doc) (k : String) : Option Json :=
  (doc.find? (fun p => p.1 == k)).map Prod.snd

def mapSet (doc : Doc) (k : String) (v : Json) : Doc :=
  if (doc.find? (fun p => p.1 == k)).isSome then
    doc.map (fun p => if p.1 == k then (k, v) else p)
  else doc ++ [(k, v)]

def mapDel (doc : Doc) (k : String) : Doc := doc.filter (fun p => p.1 != k)

def splitAux : List Char → List Char → List String
  | [], cur => [String.mk cur.reverse]
  | c :: tl, cur =>
    if c = '/' then String.mk cur.reverse :: splitAux tl [] else splitAux tl (c :: cur)

/-- `splitPath` from `schema.go` (returns `nil` on the empty string). -/
def splitPath (s : String) : List String :=
  if s = "" then [] else splitAux s.toList []

/-- `applyOp` from `schema.go`. -/
def applyOp (doc : Doc) (op : PatchOp) : Except String Doc :=
  match op.path.toList with
  | '/' :: restChars =>
    match splitPath (String.mk restChars) with
    | [] => Except.error "empty path"
    | field :: restParts =>
      if op.op = "add" ∨ op.op = "replace" then
        if restParts = [] then Except.ok (mapSet doc field op.value)
        else if restParts = ["-"] then
          let arr :=
            match mapGet doc field with
            | some (Json.arr xs) => xs
            | _ => []
          Except.ok (mapSet doc field (Json.arr (arr ++ [op.value])))
        else Except.error ("deep patch not supported in v1: " ++ op.path)
      else if op.op = "remove" then
        if restParts = [] then Except.ok (mapDel doc field)
        else Except.error ("deep remove not supported in v1: " ++ op.path)
      else if op.op = "test" then Except.ok doc
      else Except.error ("op \"" ++ op.op ++ "\" not fully implemented")
  | _ => Except.error "path must start with /"

/-- The `for i, op := range ops` loop of `ApplyPatch`: fail-fast, with
the index and operation prefixed to the error. -/
def applyOps : Doc → Nat → List PatchOp → Except String Doc
  | doc, _, [] => Except.ok doc
  | doc, i, op :: tl =>
    match applyOp doc op with
    | Except.error e =>
      Except.error ("patch[" ++ toString i ++ "] " ++ op.op ++ " " ++ op.path ++ ": " ++ e)
    | Except.ok doc' => applyOps doc' (i + 1) tl

def factJson (f : Fact) : Json :=
  Json.obj ([("id", Json.str f.id), ("key", Json.str f.key), ("value", f.value)] ++
    (if f.atS = "" then [] else [("at", Json.str f.atS)]))

def constraintJson (c : Constraint) : Json :=
  Json.obj [("id", Json.str c.id), ("description", Json.str c.description),
    ("severity", Json.str c.severity)]

def questionJson (q : Question) : Json :=
  Json.obj [("id", Json.str q.id), ("question", Json.str q.question),
    ("status", Json.str q.status)]

def decisionJson (d : Decision) : Json :=
  Json.obj ([("id", Json.str d.id), ("description", Json.str d.description),
    ("reason_codes", Json.arr (d.reasonCodes.map Json.str)),
    ("evidence_refs", Json.arr (d.evidenceRef.map Json.str)),
    ("confidence", Json.num d.confidence)] ++
    (if d.atS = "" then [] else [("at", Json.str d.atS)]))

def planStepJson (p : PlanStep) : Json :=
  Json.obj [("id", Json.str p.id), ("step", Json.str p.step), ("status", Json.str p.status)]

def artifactRefJson (a : StateArtifactRef) : Json :=
  Json.obj ([("ref", Json.str a.ref), ("type", Json.str a.type)] ++
    (if a.name = "" then [] else [("name", Json.str a.name)]))

def actionJson (a : Action) : Json :=
  Json.obj ([("at", Json.str a.atS), ("description", Json.str a.description)] ++
    (if a.resultRef = "" then [] else [("result_ref", Json.str a.resultRef)]))

def metricsJson (m : Metrics) : Json :=
  Json.obj [("cache_hits", Json.num m.cacheHits), ("cache_misses", Json.num m.cacheMisses),
    ("tokens_estimate", Json.num m.tokensEstimate),
    ("tokens_avoided", Json.num m.tokensAvoided), ("hop_count", Json.num m.hopCount)]

/-- The `json.Marshal` / `json.Unmarshal` round-trip at the top of
`ApplyPatch`, producing the `map[string]json.RawMessage` document. -/
def marshalStateDoc (st : State) : Doc :=
  [("$schema", Json.str st.schema), ("version", Json.num st.version),
   ("thread_id", Json.str st.threadID), ("updated_at", Json.str st.updatedAt),
   ("facts", Json.arr (st.facts.map factJson)),
   ("constraints", Json.arr (st.constraints.map constraintJson)),
   ("open_questions", Json.arr (st.openQuestions.map questionJson)),
   ("decisions", Json.arr (st.decisions.map decisionJson)),
   ("plan", Json.arr (st.plan.map planStepJson)),
   ("artifacts", Json.arr (st.artifacts.map artifactRefJson)),
   ("last_actions", Json.arr (st.lastActions.map actionJson)),
   ("metrics", metricsJson st.metrics)] ++
  (if st.sessionSummary = "" then [] else [("session_summary", Json.str st.sessionSummary)])

/-! Decoders for the `json.Unmarshal` into `State` at the bottom of
`ApplyPatch`: a missing key or a JSON `null` leaves the zero value; a
value of the wrong shape is an unmarshal error. -/

def decStrJ (j : Json) (d : String) : Except String String :=
  match j with
  | Json.null => Except.ok d
  | Json.str s => Except.ok s
  | _ => Except.error "cannot unmarshal into string"

def decStr (j : Option Json) (d : String) : Except String String :=
  match j with
  | none => Except.ok d
  | some j => decStrJ j d

def decInt (j : Option Json) (d : Int) : Except String Int :=
  match j with
  | none => Except.ok d
  | some Json.null => Except.ok d
  | some (Json.num n) => Except.ok n
  | some _ => Except.error "cannot unmarshal into int"

def decListWith (dec : Json → Except String α) (j : Option Json) :
    Except String (List α) :=
  match j with
  | none => Except.ok []
  | some Json.null => Except.ok []
  | some (Json.arr xs) => xs.mapM dec
  | some _ => Except.error "cannot unmarshal into slice"

def objGet (ms : List (String × Json)) (k : String) : Option Json :=
  (ms.find? (fun p => p.1 == k)).map Prod.snd

def decFact (j : Json) : Except String Fact :=
  match j with
  | Json.null => Except.ok { id := "", key := "", value := Json.null, atS := "" }
  | Json.obj ms => do
    let id ← decStr (objGet ms "id") ""
    let key ← decStr (objGet ms "key") ""
    let atS ← decStr (objGet ms "at") ""
    Except.ok { id := id, key := key, value := (objGet ms "value").getD Json.null, atS := atS }
  | _ => Except.error "cannot unmarshal into Fact"

def decConstraint (j : Json) : Except String Constraint :=
  match j with
  | Json.null => Except.ok { id := "", description := "", severity := "" }
  | Json.obj ms => do
    let id ← decStr (objGet ms "id") ""
    let de ← decStr (objGet ms "description") ""
    let sv ← decStr (objGet ms "severity") ""
    Except.ok { id := id, description := de, severity := sv }
  | _ => Except.error "cannot unmarshal into Constraint"

def decQuestion (j : Json) : Except String Question :=
  match j with
  | Json.null => Except.ok { id := "", question := "", status := "" }
  | Json.obj ms => do
    let id ← decStr (objGet ms "id") ""
    let qu ← decStr (objGet ms "question") ""
    let st ← decStr (objGet ms "status") ""
    Except.ok { id := id, question := qu, status := st }
  | _ => Except.error "cannot unmarshal into Question"

def decDecision (j : Json) : Except String Decision :=
  match j with
  | Json.null =>
    Except.ok { id := "", description := "", reasonCodes := [], evidenceRef := [],
                confidence := 0, atS := "" }
  | Json.obj ms => do
    let id ← decStr (objGet ms "id") ""
    let de ← decStr (objGet ms "description") ""
    let rc ← decListWith (fun x => decStrJ x "") (objGet ms "reason_codes")
    let ev ← decListWith (fun x => decStrJ x "") (objGet ms "evidence_refs")
    let cf ← decInt (objGet ms "confidence") 0
    let atS ← decStr (objGet ms "at") ""
    Except.ok { id := id, description := de, reasonCodes := rc, evidenceRef := ev,
                confidence := cf, atS := atS }
  | _ => Except.error "cannot unmarshal into Decision"

def decPlanStep (j : Json) : Except String PlanStep :=
  match j with
  | Json.null => Except.ok { id := "", step := "", status := "" }
  | Json.obj ms => do
    let id ← decStr (objGet ms "id") ""
    let sp ← decStr (objGet ms "step") ""
    let st ← decStr (objGet ms "status") ""
    Except.ok { id := id, step := sp, status := st }
  | _ => Except.error "cannot unmarshal into PlanStep"

def decArtifactRef (j : Json) : Except String StateArtifactRef :=
  match j with
  | Json.null => Except.ok { ref := "", type := "", name := "" }
  | Json.obj ms => do
    let rf ← decStr (objGet ms "ref") ""
    let ty ← decStr (objGet ms "type") ""
    let nm ← decStr (objGet ms "name") ""
    Except.ok { ref := rf, type := ty, name := nm }
  | _ => Except.error "cannot unmarshal into ArtifactRef"

def decAction (j : Json) : Except String Action :=
  match j with
  | Json.null => Except.ok { atS := "", description := "", resultRef := "" }
  | Json.obj ms => do
    let atS ← decStr (objGet ms "at") ""
    let de ← decStr (objGet ms "description") ""
    let rr ← decStr (objGet ms "result_ref") ""
    Except.ok { atS := atS, description := de, resultRef := rr }
  | _ => Except.error "cannot unmarshal into Action"

def decMetrics (j : Option Json) : Except String Metrics :=
  match j with
  | none => Except.ok { cacheHits := 0, cacheMisses := 0, tokensEstimate := 0,
                        tokensAvoided := 0, hopCount := 0 }
  | some Json.null => Except.ok { cacheHits := 0, cacheMisses := 0, tokensEstimate := 0,
                                  tokensAvoided := 0, hopCount := 0 }
  | some (Json.obj ms) => do
    let ch ← decInt (objGet ms "cache_hits") 0
    let cm ← decInt (objGet ms "cache_misses") 0
    let te ← decInt (objGet ms "tokens_estimate") 0
    let ta ← decInt (objGet ms "tokens_avoided") 0
    let hc ← decInt (objGet ms "hop_count") 0
    Except.ok { cacheHits := ch, cacheMisses := cm, tokensEstimate := te,
                tokensAvoided := ta, hopCount := hc }
  | some _ => Except.error "cannot unmarshal into Metrics"

/-- The `json.Unmarshal(result, &next)` at the end of `ApplyPatch`. -/
def unmarshalState (doc : Doc) : Except String State := do
  let schema ← decStr (mapGet doc "$schema") ""
  let version ← decInt (mapGet doc "version") 0
  let tid ← decStr (mapGet doc "thread_id") ""
  let upd ← decStr (mapGet doc "updated_at") ""
  let facts ← decListWith decFact (mapGet doc "facts")
  let constraints ← decListWith decConstraint (mapGet doc "constraints")
  let questions ← decListWith decQuestion (mapGet doc "open_questions")
  let decisions ← decListWith decDecision (mapGet doc "decisions")
  let plan ← decListWith decPlanStep (mapGet doc "plan")
  let artifacts ← decListWith decArtifactRef (mapGet doc "artifacts")
  let actions ← decListWith decAction (mapGet doc "last_actions")
  let metrics ← decMetrics (mapGet doc "metrics")
  let summary ← decStr (mapGet doc "session_summary") ""
  Except.ok { schema := schema, version := version, threadID := tid, updatedAt := upd,
              facts := facts, constraints := constraints, openQuestions := questions,
              decisions := decisions, plan := plan, artifacts := artifacts,
              lastActions := actions, metrics := metrics, sessionSummary := summary }

/-- `ApplyPatch` from `schema.go`: apply the ops to a JSON round-trip
copy of the state, then bump the version and stamp the update time (the
clock is an explicit argument). -/
def ApplyPatch (s : State) (ops : List PatchOp) (now : String) : Except String State :=
  match applyOps (marshalStateDoc s) 0 ops with
  | Except.error e => Except.error e
  | Except.ok doc' =>
    match unmarshalState doc' with
    | Except.error e => Except.error ("unmarshal result: " ++ e)
    | Except.ok next => Except.ok { next with version := s.version + 1, updatedAt := now }

/-- A row of the `states` table; primary key `(thread_id, version)`. -/
structure StateRow where
  threadID : String
  version : Int
  state : State

def latestRow : List StateRow → Option StateRow
  | [] => none
  | r :: tl =>
    match latestRow tl with
    | none => some r
    | some best => if r.version > best.version then some r else some best

/-- `Store.Get`: the row with the highest version for the thread
(`ORDER BY version DESC LIMIT 1`; versions are unique per thread by the
primary key). -/
def storeGet (rows : List StateRow) (tid : String) : Option State :=
  (latestRow (rows.filter (fun r => r.threadID == tid))).map StateRow.state

/-- `Store.Put`: `INSERT OR REPLACE` on `(thread_id, version)` (the
`state.json` file mirror is not modelled). -/
def storePut (rows : List StateRow) (st : State) : List StateRow :=
  rows.filter (fun r => !(r.threadID == st.threadID && r.version == st.version)) ++
    [{ threadID := st.threadID, version := st.version, state := st }]

/-- `Store.Patch` from `schema.go`: validate, load the latest state,
apply, and persist the result only on success.  Returns the result and
the table after the call. -/
def storePatch (rows : List StateRow) (tid : String) (ops : List PatchOp) (now : String) :
    Except String State × List StateRow :=
  match ValidatePatch ops with
  | some e => (Except.error ("invalid patch: " ++ e), rows)
  | none =>
    match storeGet rows tid with
    | none => (Except.error ("state not found for thread " ++ tid), rows)
    | some cur =>
      match ApplyPatch cur ops now with
      | Except.error e => (Except.error ("apply patch: " ++ e), rows)
      | Except.ok next => (Except.ok next, storePut rows next)

/-! ### Fixtures and auxiliary predicates used by the theorems -/

/-- Whether two adjacent actions agree on description and result ref —
the condition under which `collapseActions` merges them. -/
def hasAdjDup : List Action → Bool
  | a :: b :: tl =>
    (decide (a.description = b.description ∧ a.resultRef = b.resultRef)) || hasAdjDup (b :: tl)
  | _ => false

def zeroMetrics : Metrics :=
  { cacheHits := 0, cacheMisses := 0, tokensEstimate := 0, tokensAvoided := 0, hopCount := 0 }

/-- `NewState` from `schema.go` (with a fixed creation timestamp). -/
def emptyState (tid : String) : State :=
  { schema := schemaVersion, version := 1, threadID := tid,
    updatedAt := "2024-01-01T00:00:00Z", facts := [], constraints := [],
    openQuestions := [], decisions := [], plan := [], artifacts := [],
    lastActions := [], metrics := zeroMetrics, sessionSummary := "" }

/-- A constraint whose description alone is 2500 bytes. -/
def bigConstraint : Constraint :=
  { id := "c1", description := String.mk (List.replicate 2500 'a'), severity := "hard" }

/-- A state whose single constraint alone serializes to more than
`MaxHeaderBytes` bytes. -/
def bigConstraintState : State :=
  { emptyState "t" with constraints := [bigConstraint] }

/-- A state on which compaction is not idempotent: the first call
collapses the two leading duplicates into `"a (x2)"`, making the result
adjacent-equal to the third action, which the second call collapses
again. -/
def adjDupState : State :=
  { emptyState "t" with
    lastActions :=
      [{ atS := "", description := "a", resultRef := "" },
       { atS := "", description := "a", resultRef := "" },
       { atS := "", description := "a (x2)", resultRef := "" }] }

/-- A state on which the compactor's closure check fails: two duplicate
actions reference artifact `r9`, which is not among the artifact refs. -/
def danglingRefState : State :=
  { emptyState "t" with
    lastActions :=
      [{ atS := "", description := "a", resultRef := "r9" },
       { atS := "", description := "a", resultRef := "r9" }] }

/-- 250 artifact refs `r1..r250`, oldest first. -/
def manyRefs : List StateArtifactRef :=
  (List.range 250).map (fun i => { ref := "r" ++ toString (i + 1), type := "", name := "" })

/-- The scenario state of claim C5, over arbitrary remaining fields. -/
def c5State (facts : List Fact) (constraints : List Constraint) (questions : List Question)
    (decisions : List Decision) (plan : List PlanStep) (mets : Metrics)
    (version : Int) (schema tid upd summ desc ats : String) : State :=
  { schema := schema, version := version, threadID := tid, updatedAt := upd,
    facts := facts, constraints := constraints, openQuestions := questions,
    decisions := decisions, plan := plan, artifacts := manyRefs,
    lastActions := [{ atS := ats, description := desc, resultRef := "r1" }],
    metrics := mets, sessionSummary := summ }

/-- A one-row state store and a patch whose second operation uses an
unsupported deep indexed path. -/
def oneRowStore : List StateRow := [{ threadID := "t", version := 1, state := emptyState "t" }]

def deepPatchOps : List PatchOp :=
  [{ op := "add", path := "/facts/-", value := Json.str "v" },
   { op := "add", path := "/facts/3/value", value := Json.str "w" }]

/-- A cache row with expiry instant 10 and hit count 3. -/
def sampleEntry : CacheEntry :=
  { key := "k", capability := "c", argsHash := "h", preview := "p", artifactRef := "ar",
    threadID := "t", createdAt := 0, expiresAt := 10, hitCount := 3 }

/-! ### Claim C1 — sanitization of repeated pattern occurrences -/

/-- C1: the sanitizer masks only the first occurrence of each pattern.
On `"[INST][INST]"` the replacement loop (an `if`, not a loop, per
pattern) rewrites the first `"[INST]"` to `[SANITIZED]` and leaves the
second intact, so the lower-cased sanitized output still contains the
pattern `"[inst]"` — contradicting the claim that every occurrence is
masked (and the spec's `S ∉ sanitize(input)` invariant). -/
theorem c1_second_occurrence_survives :
    sanitizePreview (strBytes "[INST][INST]") = strBytes "[SANITIZED][INST]" ∧
    containsSeq (lowerBytes (strBytes "[INST]"))
      (lowerBytes (sanitizePreview (strBytes "[INST][INST]"))) = true := by
  constructor
  · decide
  · decide

/-! ### Claim C6 — previews of binary / invalid-UTF-8 artifacts -/

/-- C6 counterexample: for a type-`binary` artifact the preview's
truncated flag is `false`, not `true` as the claim states (the
`atype == TypeBinary` branch of `generatePreview` returns without
setting `Truncated`). -/
theorem c6_counterexample_binary_not_truncated :
    ¬ ((generatePreview [255] ArtifactType.binary).truncated = true) := by
  decide

/-- C6 (amended): a type-`binary` artifact gets the synthetic
`"[binary, N bytes]"` marker with `truncated = false`; content that is
not valid UTF-8 (under any non-binary type tag) gets the
`"[binary data, N bytes]"` marker with `truncated = true`. -/
theorem c6_binary_preview (content : List Nat) (atype : ArtifactType)
    (hbin : atype ≠ ArtifactType.binary) (hutf : validUTF8 content = false) :
    generatePreview content ArtifactType.binary =
      { text := strBytes ("[binary, " ++ toString content.length ++ " bytes]"),
        lineCount := 0, truncated := false, size := content.length } ∧
    generatePreview content atype =
      { text := strBytes ("[binary data, " ++ toString content.length ++ " bytes]"),
        lineCount := 0, truncated := true, size := content.length } := by
  constructor
  · simp [generatePreview]
  · simp [generatePreview, hbin, hutf]

/-- C6 witness: the amended characterization evaluated at the one-byte
content `0xFF` (not valid UTF-8) and type `text`. -/
theorem c6_binary_preview_witness :
    generatePreview [255] ArtifactType.binary =
      { text := strBytes "[binary, 1 bytes]", lineCount := 0, truncated := false, size := 1 } ∧
    generatePreview [255] ArtifactType.text =
      { text := strBytes "[binary data, 1 bytes]", lineCount := 0, truncated := true,
        size := 1 } :=
  c6_binary_preview [255] ArtifactType.text (by decide) (by decide)

/-! ### Claim C7 — ref collisions on artifact `Put` -/

/-- C7: `Put` does not detect ref collisions.  Two `Put` calls that draw
the same millisecond timestamp and the same 48 random bits generate the
same ref, and the second call's `INSERT OR REPLACE` silently replaces
the first artifact's row instead of rejecting the write: afterwards the
store holds a single row, the second artifact's, and the first row is
gone. -/
theorem c7_put_collision_overwrites :
    (putArtifact
        (putArtifact [] "t" "a" ArtifactType.text "text/plain" (strBytes "old")
          "2024-01-01T00:00:00Z" 5 7).2
        "t" "b" ArtifactType.text "text/plain" (strBytes "newer")
        "2024-01-02T00:00:00Z" 5 7).1.ref =
      (putArtifact [] "t" "a" ArtifactType.text "text/plain" (strBytes "old")
        "2024-01-01T00:00:00Z" 5 7).1.ref ∧
    (putArtifact
        (putArtifact [] "t" "a" ArtifactType.text "text/plain" (strBytes "old")
          "2024-01-01T00:00:00Z" 5 7).2
        "t" "b" ArtifactType.text "text/plain" (strBytes "newer")
        "2024-01-02T00:00:00Z" 5 7).2 =
      [(putArtifact
          (putArtifact [] "t" "a" ArtifactType.text "text/plain" (strBytes "old")
            "2024-01-01T00:00:00Z" 5 7).2
          "t" "b" ArtifactType.text "text/plain" (strBytes "newer")
          "2024-01-02T00:00:00Z" 5 7).1] ∧
    (putArtifact [] "t" "a" ArtifactType.text "text/plain" (strBytes "old")
        "2024-01-01T00:00:00Z" 5 7).1 ≠
      (putArtifact
          (putArtifact [] "t" "a" ArtifactType.text "text/plain" (strBytes "old")
            "2024-01-01T00:00:00Z" 5 7).2
          "t" "b" ArtifactType.text "text/plain" (strBytes "newer")
          "2024-01-02T00:00:00Z" 5 7).1 := by
  refine ⟨by decide, by decide, by decide⟩

/-! ### Claim C4 — compaction atomicity on failure -/

/-- C4: when the closure check fails, the caller-visible state is not
the original.  On `danglingRefState` the compactor returns the
`IntegrityError`, yet the state after the call has the two duplicate
actions collapsed into one (`"a (x2)"`) and a fresh session summary:
the partial compaction is observable.  The serialized forms differ. -/
theorem c4_failed_compact_mutates_state :
    (Compact danglingRefState).1 =
      some "referential closure violated: action references missing artifact r9" ∧
    (Compact danglingRefState).2.lastActions =
      [{ atS := "", description := "a (x2)", resultRef := "r9" }] ∧
    (Compact danglingRefState).2.sessionSummary =
      "Compacted: actions 2→1, artifacts 0→0" ∧
    encState (Compact danglingRefState).2 ≠ encState danglingRefState := by
  refine ⟨by decide, by decide, by decide, by decide⟩

/-! ### Claim C2 — the header byte cap -/

theorem byteSizeGo_append (l1 l2 : List Char) :
    byteSizeGo (l1 ++ l2) = byteSizeGo l1 + byteSizeGo l2 := by
  induction l1 with
  | nil => simp [byteSizeGo]
  | cons c tl ih => simp [byteSizeGo, ih]; omega

theorem byteSize_append (a b : String) : byteSize (a ++ b) = byteSize a + byteSize b := by
  have : (a ++ b).toList = a.toList ++ b.toList := by
    show (a ++ b).data = a.data ++ b.data
    exact String.data_append a b
  simp [byteSize, this, byteSizeGo_append]

theorem byteSize_foldl_append (l : List String) (acc : String) :
    byteSize (l.foldl (fun r s => r ++ s) acc) = byteSize acc + (l.map byteSize).sum := by
  induction l generalizing acc with
  | nil => simp
  | cons s tl ih => simp [ih, byteSize_append]; omega

theorem byteSize_join_replicate_a (n : Nat) :
    byteSize (String.join (List.replicate n "a")) = n := by
  have h1 : byteSize "a" = 1 := rfl
  have h2 : byteSize "" = 0 := rfl
  simp [String.join, byteSize_foldl_append, h1, h2]

theorem constraints_le_headerLen (h : Header) :
    byteSize (encList encConstraint h.topConstraints) ≤ headerLen h := by
  simp only [headerLen, encHeader, byteSize_append]
  omega

theorem description_le_encConstraint (c : Constraint) :
    byteSize (encStr c.description) ≤ byteSize (encConstraint c) := by
  simp only [encConstraint, byteSize_append]
  omega

theorem join_le_encStr (s : String) :
    byteSize (String.join (s.toList.map escChar)) ≤ byteSize (encStr s) := by
  simp only [encStr, byteSize_append]
  omega

/-- C2 counterexample: the byte-cap loop only ever drops facts, so a
state with no facts and one 2500-byte constraint yields a header whose
serialization exceeds `MAX_HEADER_BYTES = 2048` — the claimed universal
bound is false. -/
theorem c2_counterexample_oversized_header :
    maxHeaderBytes < headerLen (State.header bigConstraintState) := by
  have hH : State.header bigConstraintState = headerBase bigConstraintState := rfl
  have hc : (headerBase bigConstraintState).topConstraints = [bigConstraint] := rfl
  have hjoin : byteSize (String.join (bigConstraint.description.toList.map escChar)) = 2500 := by
    have hmap : bigConstraint.description.toList.map escChar = List.replicate 2500 "a" := by
      show (String.mk (List.replicate 2500 'a')).toList.map escChar = _
      have : (String.mk (List.replicate 2500 'a')).toList = List.replicate 2500 'a' := rfl
      rw [this, List.map_replicate]
      rfl
    rw [hmap, byteSize_join_replicate_a]
  have hsingle :
      byteSize (encConstraint bigConstraint) ≤
        byteSize (encList encConstraint [bigConstraint]) := by
    have hl : encList encConstraint [bigConstraint] = "[" ++ encConstraint bigConstraint ++ "]" := by
      simp [encList, commaJoin]
    rw [hl, byteSize_append, byteSize_append]
    omega
  have chain : 2500 ≤ headerLen (headerBase bigConstraintState) := by
    calc 2500 = byteSize (String.join (bigConstraint.description.toList.map escChar)) :=
          hjoin.symm
      _ ≤ byteSize (encStr bigConstraint.description) := join_le_encStr _
      _ ≤ byteSize (encConstraint bigConstraint) := description_le_encConstraint _
      _ ≤ byteSize (encList encConstraint [bigConstraint]) := hsingle
      _ = byteSize (encList encConstraint (headerBase bigConstraintState).topConstraints) := by
          rw [hc]
      _ ≤ headerLen (headerBase bigConstraintState) := constraints_le_headerLen _
  rw [hH]
  calc maxHeaderBytes < 2500 := by decide
    _ ≤ headerLen (headerBase bigConstraintState) := chain

theorem capFactsGo_fieldsEq (fuel : Nat) (h : Header) :
    (capFactsGo fuel h).topConstraints = h.topConstraints ∧
    (capFactsGo fuel h).openQuestions = h.openQuestions ∧
    (capFactsGo fuel h).nextSteps = h.nextSteps ∧
    (capFactsGo fuel h).artifactRefs = h.artifactRefs ∧
    (capFactsGo fuel h).lastActions = h.lastActions ∧
    (capFactsGo fuel h).metrics = h.metrics := by
  induction fuel generalizing h with
  | zero => simp [capFactsGo]
  | succ n ih =>
    by_cases he : h.topFacts.isEmpty
    · simp [capFactsGo, he]
    · by_cases hl : headerLen h ≤ maxHeaderBytes
      · simp [capFactsGo, he, hl]
      · simpa [capFactsGo, he, hl] using
          ih { h with topFacts := h.topFacts.tail, truncated := true }

theorem capFactsGo_cap (fuel : Nat) (h : Header) (hf : h.topFacts.length ≤ fuel) :
    headerLen (capFactsGo fuel h) ≤ maxHeaderBytes ∨ (capFactsGo fuel h).topFacts = [] := by
  induction fuel generalizing h with
  | zero =>
    right
    have h0 : h.topFacts = [] := List.length_eq_zero.mp (Nat.le_zero.mp hf)
    simp [capFactsGo, h0]
  | succ n ih =>
    by_cases he : h.topFacts.isEmpty
    · right
      simp only [capFactsGo, he, if_true]
      exact List.isEmpty_iff.mp he
    · by_cases hl : headerLen h ≤ maxHeaderBytes
      · left
        simp [capFactsGo, he, hl]
      · have hne : h.topFacts ≠ [] := by
          intro h0
          exact he (by simp [h0])
        have htail : ({ h with topFacts := h.topFacts.tail, truncated := true } :
            Header).topFacts.length ≤ n := by
          have := List.length_tail h.topFacts
          have hpos : 0 < h.topFacts.length := List.length_pos.mpr hne
          simp only []
          omega
        simpa [capFactsGo, he, hl] using
          ih { h with topFacts := h.topFacts.tail, truncated := true } htail

/-- C2 (amended): the byte cap evicts only facts.  After the cap loop,
either the serialized header is within `MAX_HEADER_BYTES = 2048` bytes
or every fact has been dropped (in which case the serialization may
still exceed the cap, as the counterexample shows); the constraint,
question, plan, artifact-ref, action and metrics projections are
exactly those of the count-capped header, untouched by byte-cap
eviction. -/
theorem c2_header_cap_amended (s : State) :
    (headerLen (State.header s) ≤ maxHeaderBytes ∨ (State.header s).topFacts = []) ∧
    (State.header s).topConstraints = (headerBase s).topConstraints ∧
    (State.header s).openQuestions = (headerBase s).openQuestions ∧
    (State.header s).nextSteps = (headerBase s).nextSteps ∧
    (State.header s).artifactRefs = (headerBase s).artifactRefs ∧
    (State.header s).lastActions = (headerBase s).lastActions ∧
    (State.header s).metrics = (headerBase s).metrics := by
  constructor
  · exact capFactsGo_cap _ _ (Nat.le_refl _)
  · exact capFactsGo_fieldsEq _ _

/-! ### Claim C8 — proxy capture events -/

/-- C8: with a sink configured and the request successfully proxied, a
capture event is emitted exactly when the method is `GET`, the body is
non-empty and the content type is textual (`isTextContent`), and the
emitted event carries the exact response body bytes (and content type
and host).  In particular a `POST`, or a response whose content type is
not textual (such as `image/png`), emits no event. -/
theorem c8_capture_exactly_textual_get (hasSink : Bool) (method : String) (reqOk : Bool)
    (host path query : String) (body : List Nat) (ct : String)
    (hs : hasSink = true) (hok : reqOk = true) :
    ((handleHTTPCapture hasSink method reqOk host path query body ct).isSome = true ↔
      (method = "GET" ∧ body ≠ [] ∧ isTextContent ct = true)) ∧
    ∀ ev, handleHTTPCapture hasSink method reqOk host path query body ct = some ev →
      ev.body = body ∧ ev.contentType = ct ∧ ev.host = host := by
  subst hs
  subst hok
  constructor
  · by_cases hm : method = "GET"
    · by_cases hb : body = [] <;> by_cases htc : isTextContent ct = true <;>
        simp [handleHTTPCapture, emit, hm, hb, htc]
    · simp [handleHTTPCapture, hm]
  · intro ev hev
    by_cases hm : method = "GET"
    · simp only [handleHTTPCapture, emit, hm, if_true, if_neg] at hev
      by_cases hb : body.isEmpty
      · simp [hb] at hev
      · by_cases htc : isTextContent ct = true
        · simp [hb, htc] at hev
          subst hev
          exact ⟨rfl, rfl, rfl⟩
        · simp [hb, htc] at hev
    · simp [handleHTTPCapture, hm] at hev

/-- C8 witness: a proxied `GET` with body `[1]` and content type
`application/json` — the equivalence and the exact-body property at a
concrete input. -/
theorem c8_capture_witness :
    ((handleHTTPCapture true "GET" true "h" "/p" "" [1] "application/json").isSome = true ↔
      ("GET" = "GET" ∧ [1] ≠ ([] : List Nat) ∧ isTextContent "application/json" = true)) ∧
    ∀ ev, handleHTTPCapture true "GET" true "h" "/p" "" [1] "application/json" = some ev →
      ev.body = [1] ∧ ev.contentType = "application/json" ∧ ev.host = "h" :=
  c8_capture_exactly_textual_get true "GET" true "h" "/p" "" [1] "application/json" rfl rfl

/-! ### Claim C9 — cache Get: lazy expiry and hit counting -/

/-- C9: if the row for `key` exists, then (a) when `now` is past its
expiry, `Get` returns a miss and deletes the row — the table afterwards
holds no entry for the key; (b) when not expired, `Get` returns a hit
whose entry is the stored one with its hit count one larger. -/
theorem c9_cache_get_expiry_and_hit (tbl : List CacheEntry) (key : String) (now : Nat)
    (e : CacheEntry) (hfind : tbl.find? (fun x => x.key == key) = some e) :
    (now > e.expiresAt →
      cacheGet tbl key now = (none, false, tbl.filter (fun x => x.key != key)) ∧
      (tbl.filter (fun x => x.key != key)).find? (fun x => x.key == key) = none) ∧
    (¬ now > e.expiresAt →
      (cacheGet tbl key now).1 = some { e with hitCount := e.hitCount + 1 } ∧
      (cacheGet tbl key now).2.1 = true) := by
  constructor
  · intro hexp
    constructor
    · simp [cacheGet, hfind, hexp]
    · rw [List.find?_eq_none]
      intro x hx
      have hne := (List.mem_filter.mp hx).2
      simp only [bne_iff_ne, ne_eq] at hne
      simp [hne]
  · intro hexp
    simp [cacheGet, hfind, hexp]

/-- C9 witness: a row with expiry instant 10 and hit count 3 — a `Get`
at instant 11 misses and deletes it; a `Get` at instant 10 hits with
count 4. -/
theorem c9_cache_witness :
    (11 > sampleEntry.expiresAt →
      cacheGet [sampleEntry] "k" 11 =
        (none, false, [sampleEntry].filter (fun x => x.key != "k")) ∧
      ([sampleEntry].filter (fun x => x.key != "k")).find? (fun x => x.key == "k") = none) ∧
    (¬ 11 > sampleEntry.expiresAt →
      (cacheGet [sampleEntry] "k" 11).1 = some { sampleEntry with hitCount := sampleEntry.hitCount + 1 } ∧
      (cacheGet [sampleEntry] "k" 11).2.1 = true) :=
  c9_cache_get_expiry_and_hit [sampleEntry] "k" 11 sampleEntry rfl

/-! ### Claim C10 — all-or-nothing patch application -/

/-- C10: if the latest state loads and some operation fails while the
batch is being applied (to the JSON round-trip copy), `Store.Patch`
returns the error, persists nothing, and the store — hence its latest
state for the thread — is exactly what it was before the call. -/
theorem c10_patch_failure_atomic (rows : List StateRow) (tid now : String)
    (ops : List PatchOp) (cur : State) (e : String)
    (hval : ValidatePatch ops = none)
    (hget : storeGet rows tid = some cur)
    (happly : applyOps (marshalStateDoc cur) 0 ops = Except.error e) :
    (storePatch rows tid ops now).1 = Except.error ("apply patch: " ++ e) ∧
    (storePatch rows tid ops now).2 = rows ∧
    storeGet (storePatch rows tid ops now).2 tid = some cur := by
  have hap : ApplyPatch cur ops now = Except.error e := by
    simp [ApplyPatch, happly]
  refine ⟨?_, ?_, ?_⟩ <;> simp [storePatch, hval, hget, hap]

/-- C10 witness: a two-op batch on a one-row store whose first op
appends a fact and whose second uses an unsupported deep indexed path —
the call errors and the store is unchanged. -/
theorem c10_patch_witness :
    (storePatch oneRowStore "t" deepPatchOps "2024-01-02T00:00:00Z").1 =
      Except.error
        ("apply patch: " ++
          "patch[1] add /facts/3/value: deep patch not supported in v1: /facts/3/value") ∧
    (storePatch oneRowStore "t" deepPatchOps "2024-01-02T00:00:00Z").2 = oneRowStore ∧
    storeGet (storePatch oneRowStore "t" deepPatchOps "2024-01-02T00:00:00Z").2 "t" =
      some (emptyState "t") :=
  c10_patch_failure_atomic oneRowStore "t" "2024-01-02T00:00:00Z" deepPatchOps
    (emptyState "t")
    "patch[1] add /facts/3/value: deep patch not supported in v1: /facts/3/value"
    rfl rfl rfl

/-! ### Claim C3 — idempotence of compaction -/

/-- C3 counterexample: on `adjDupState` both compactions succeed, yet
the serialized states differ — the first call collapses the two leading
duplicates into `"a (x2)"`, which is then adjacent-equal to the third
action and is collapsed again (to `"a (x2) (x2)"`) by the second call. -/
theorem c3_counterexample_not_idempotent :
    (Compact adjDupState).1 = none ∧
    (Compact (Compact adjDupState).2).1 = none ∧
    encState (Compact (Compact adjDupState).2).2 ≠ encState (Compact adjDupState).2 := by
  refine ⟨by decide, by decide, by decide⟩

theorem collapseGo_no_dup (tl : List Action) :
    ∀ cur out, hasAdjDup (cur :: tl) = false → collapseGo tl cur 1 out = out ++ cur :: tl := by
  induction tl with
  | nil =>
    intro cur out _
    simp [collapseGo, flushAction]
  | cons a tl ih =>
    intro cur out h
    simp only [hasAdjDup, Bool.or_eq_false_iff, decide_eq_false_iff_not] at h
    have hcond : ¬ (a.description = cur.description ∧ a.resultRef = cur.resultRef) := by
      intro hc
      exact h.1 ⟨hc.1.symm, hc.2.symm⟩
    rw [collapseGo, if_neg hcond, ih a (flushAction out cur 1) h.2]
    simp [flushAction]

theorem collapseActions_id (l : List Action) (h : hasAdjDup l = false) :
    collapseActions l = l := by
  cases l with
  | nil => rfl
  | cons a tl => simpa [collapseActions] using collapseGo_no_dup tl a [] h

theorem compact_actions_le (st : State) :
    ((Compact st).2).lastActions.length ≤ maxActionsKeep := by
  simp only [Compact]
  by_cases he : st.lastActions.isEmpty
  · have h0 : st.lastActions = [] := List.isEmpty_iff.mp he
    simp [he, h0]
  · by_cases hc : (collapseActions st.lastActions).length > maxActionsKeep
    · simp [he, hc, List.length_drop]
      omega
    · simp [he, hc]
      omega

theorem compact_closure_eq (st : State) :
    (Compact st).1 =
      ensureReferentialClosure (Compact st).2.lastActions (Compact st).2.artifacts := rfl

theorem collectMissing_all_seen (arts : List StateArtifactRef) (keep seen : List String)
    (h : ∀ a ∈ arts, seen.contains a.ref = true) : collectMissing arts keep seen = [] := by
  induction arts with
  | nil => rfl
  | cons a tl ih =>
    have ha := h a (by simp)
    rw [collectMissing,
      if_neg (by simp [ha]; intro _; exact List.mem_of_elem_eq_true ha)]
    exact ih (fun x hx => h x (by simp [hx]))

theorem compactArtifacts_id (arts : List StateArtifactRef) (keep : List String)
    (h : arts.length ≤ maxArtifactsKeep) : compactArtifacts arts keep = arts := by
  unfold compactArtifacts
  by_cases he : arts.isEmpty
  · simp [he]
  · have hb : ¬ arts.length > maxArtifactsKeep := by omega
    by_cases hk : keep.isEmpty
    · simp [he, hb, hk, sortMissing]
    · have hm : collectMissing arts keep (arts.map (fun a => a.ref)) = [] :=
        collectMissing_all_seen _ _ _ (fun a ha => by
          have : a.ref ∈ arts.map (fun a => a.ref) := List.mem_map_of_mem _ ha
          exact List.elem_eq_true_of_mem this)
      simp [he, hb, hk, hm, sortMissing]

/-- C3 (amended): compaction is idempotent at its fixed point provided
the first call's result has no adjacent actions with equal description
and result ref and holds at most `MAX_ARTIFACTS_KEEP` artifact refs:
the second call then returns the state unchanged (and its serialization
byte-identical).  Without those provisos the counterexample applies —
re-suffixed `"(xN)"` descriptions can collapse again, and a result with
more than `MAX_ARTIFACTS_KEEP` refs (base plus re-added) is pruned
further by the second call. -/
theorem c3_compact_idempotent_amended (st st1 : State)
    (h1 : Compact st = (none, st1))
    (hdup : hasAdjDup st1.lastActions = false)
    (hart : st1.artifacts.length ≤ maxArtifactsKeep) :
    Compact st1 = (none, st1) ∧ encState (Compact st1).2 = encState st1 := by
  have hlen : st1.lastActions.length ≤ maxActionsKeep := by
    have hl := compact_actions_le st
    rw [h1] at hl
    exact hl
  have hcoll : collapseActions st1.lastActions = st1.lastActions :=
    collapseActions_id _ hdup
  have hclosure : ensureReferentialClosure st1.lastActions st1.artifacts = none := by
    have hc := compact_closure_eq st
    rw [h1] at hc
    exact hc.symm
  have harts : compactArtifacts st1.artifacts (referencedArtifacts st1.lastActions) =
      st1.artifacts :=
    compactArtifacts_id _ _ hart
  have hla :
      (if st1.lastActions.isEmpty then st1.lastActions
       else
         let c := collapseActions st1.lastActions
         if c.length > maxActionsKeep then c.drop (c.length - maxActionsKeep) else c) =
        st1.lastActions := by
    by_cases he : st1.lastActions.isEmpty
    · simp [he]
    · have hgt : ¬ st1.lastActions.length > maxActionsKeep := by omega
      simp [he, hcoll, hgt]
  have harts2 :
      (if st1.artifacts.length > maxArtifactsKeep ∨
          ¬ (referencedArtifacts st1.lastActions).isEmpty then
        compactArtifacts st1.artifacts (referencedArtifacts st1.lastActions)
       else st1.artifacts) = st1.artifacts := by
    by_cases hc : st1.artifacts.length > maxArtifactsKeep ∨
        ¬ (referencedArtifacts st1.lastActions).isEmpty
    · rw [if_pos hc]
      exact harts
    · rw [if_neg hc]
  have hmain : Compact st1 = (none, st1) := by
    simp only [Compact]
    rw [hla, harts2]
    simp [hclosure]
  exact ⟨hmain, by rw [hmain]⟩

/-- C3 witness: the empty state is a fixed point — its compaction
succeeds, satisfies both provisos, and recompacting returns it
byte-identically. -/
theorem c3_idempotent_witness :
    Compact (emptyState "t") = (none, emptyState "t") ∧
    encState (Compact (emptyState "t")).2 = encState (emptyState "t") :=
  c3_compact_idempotent_amended (emptyState "t") (emptyState "t") rfl rfl (by decide)

/-! ### Claim C5 — compaction preserves referenced artifacts -/

/-- C5: for every state with artifact refs `r1..r250` and one action
whose result ref is `r1` (all other fields arbitrary), compaction
succeeds; the final artifact refs are exactly the newest 200
(`r51..r250`) with the re-added `r1` entry appended (deduplicated, in
the deterministic by-ref-then-name order), hence at most
`MAX_ARTIFACTS_KEEP + 1 = 201` of them including `r1`; and the closure
check on the final state passes. -/
theorem c5_compaction_preserves_referenced
    (facts : List Fact) (constraints : List Constraint) (questions : List Question)
    (decisions : List Decision) (plan : List PlanStep) (mets : Metrics) (version : Int)
    (schema tid upd summ desc ats : String) :
    (Compact (c5State facts constraints questions decisions plan mets version
        schema tid upd summ desc ats)).1 = none ∧
    (Compact (c5State facts constraints questions decisions plan mets version
        schema tid upd summ desc ats)).2.artifacts =
      manyRefs.drop 50 ++ [{ ref := "r1", type := "", name := "" }] ∧
    (Compact (c5State facts constraints questions decisions plan mets version
        schema tid upd summ desc ats)).2.artifacts.length ≤ maxArtifactsKeep + 1 ∧
    (((Compact (c5State facts constraints questions decisions plan mets version
        schema tid upd summ desc ats)).2.artifacts.map (fun x => x.ref)).contains "r1")
      = true ∧
    ensureReferentialClosure
      (Compact (c5State facts constraints questions decisions plan mets version
        schema tid upd summ desc ats)).2.lastActions
      (Compact (c5State facts constraints questions decisions plan mets version
        schema tid upd summ desc ats)).2.artifacts = none := by
  have hne : ("r1" : String) ≠ "" := by decide
  have hact : collapseActions [({ atS := ats, description := desc, resultRef := "r1" } : Action)] =
      [{ atS := ats, description := desc, resultRef := "r1" }] := by
    simp [collapseActions, collapseGo, flushAction]
  have hrefs :
      referencedArtifacts [({ atS := ats, description := desc, resultRef := "r1" } : Action)] =
        ["r1"] := by
    simp [referencedArtifacts, hne]
  have hca : compactArtifacts manyRefs ["r1"] =
      manyRefs.drop 50 ++ [{ ref := "r1", type := "", name := "" }] := by decide
  have hlen250 : manyRefs.length = 250 := by decide
  have hlen201 :
      (manyRefs.drop 50 ++ [({ ref := "r1", type := "", name := "" } : StateArtifactRef)]).length
        = 201 := by decide
  have hmem :
      ("r1" : String) ∈
        (manyRefs.drop 50 ++ [({ ref := "r1", type := "", name := "" } : StateArtifactRef)]).map
          (fun x => x.ref) := by decide
  have hclos :
      ensureReferentialClosure
        [({ atS := ats, description := desc, resultRef := "r1" } : Action)]
        (manyRefs.drop 50 ++ [{ ref := "r1", type := "", name := "" }]) = none := by
    simp only [ensureReferentialClosure, closureGo]
    rw [if_neg (by simp)]
    rw [if_neg hne, if_pos (List.elem_eq_true_of_mem hmem)]
  have hmain : Compact (c5State facts constraints questions decisions plan mets version
      schema tid upd summ desc ats) =
      (none,
       { c5State facts constraints questions decisions plan mets version
           schema tid upd summ desc ats with
         artifacts := manyRefs.drop 50 ++ [{ ref := "r1", type := "", name := "" }],
         lastActions := [{ atS := ats, description := desc, resultRef := "r1" }],
         sessionSummary := "Compacted: actions 1→1, artifacts 250→201" }) := by
    simp only [Compact, c5State]
    have hgt :
        ¬ ([({ atS := ats, description := desc, resultRef := "r1" } : Action)].length
          > maxActionsKeep) := by simp [maxActionsKeep]
    simp only [List.isEmpty_cons, Bool.false_eq_true, if_false, hact, if_neg hgt, hrefs]
    have hcond2 : manyRefs.length > maxArtifactsKeep ∨ ¬False :=
      Or.inl (by rw [hlen250]; decide)
    simp only [if_pos hcond2, hca]
    have hsum :
        ([({ atS := ats, description := desc, resultRef := "r1" } : Action)].length ≠
            [({ atS := ats, description := desc, resultRef := "r1" } : Action)].length) ∨
          ((manyRefs.drop 50 ++
              [({ ref := "r1", type := "", name := "" } : StateArtifactRef)]).length ≠
            manyRefs.length) := Or.inr (by rw [hlen201, hlen250]; decide)
    simp only [if_pos hsum]
    rw [hclos]
    simp only [Prod.mk.injEq, State.mk.injEq, eq_self_iff_true, true_and, and_true]
    have hlen1 :
        [({ atS := ats, description := desc, resultRef := "r1" } : Action)].length = 1 := rfl
    rw [hlen1, hlen201, hlen250]
    decide
  refine ⟨?_, ?_, ?_, ?_, ?_⟩
  · rw [hmain]
  · rw [hmain]
  · rw [hmain]
    simpa using hlen201.le
  · rw [hmain]
    exact List.elem_eq_true_of_mem hmem
  · rw [hmain]
    exact hclos

end Relay
